import Mathlib

set_option maxRecDepth 40000

/-!
Shallow embedding of the codecriticAI pipeline (`codecriticAI/main.py`):
a three-stage tool that extracts a git diff, sends it to a chat-completion
API for review, and renders the markdown response as an HTML report.

External effects (the subprocess, the network call, the environment) are
supplied by a `World` record acting as the oracle for one run; each stage
is a pure function of its inputs and the world, returning the lines it
printed together with its outcome.  The browser launch at the end of
`main` is boundary I/O and is not modelled.
-/

/-- The fixed template part of the review prompt: everything of the f-string
in `code_review_with_openai` (main.py lines 24-84) that precedes the
`diff_text` substitution point. -/
def promptTemplate : String :=
  "Perform a comprehensive code review following this structure:\n\n    ## 🔍 Code Review Summary\n    [Brief overview of main findings (2-3 lines)]\n\n    ## 🐛 Potential Bugs & Risks\n    ### Critical Issues\n    - List critical problems with [File:Line] references\n    - Explain impact and likelihood\n\n    ### Warning Signs\n    - Highlight suspicious patterns\n    - Point out error-prone code\n\n    ## 🧹 Code Quality Assessment\n    ### Maintainability\n    - Code organization concerns\n    - Complexity issues\n    - Documentation needs\n\n    ### Readability\n    - Naming improvements\n    - Structure suggestions\n    - Consistency checks\n\n    ### Performance\n    - Inefficient patterns\n    - Resource management\n    - Optimization opportunities\n\n    ## 🛡️ Security Checklist\n    - Vulnerabilities found\n    - Input validation issues\n    - Security best practice violations\n\n    ## 💡 Actionable Recommendations\n    ### Required Changes\n    - List must-fix items\n\n    ### Suggested Improvements\n    - Quality enhancements\n    - Refactoring opportunities\n\n    ### Best Practices\n    - Specific improvements for PEP8/SOLID/DRY etc.\n\n    ## 📈 Final Assessment\n    [Overall rating: 👍/👎/⚠️]\n    [Confidence level: High/Medium/Low]\n    [Estimated effort to fix: Small/Medium/Large]\n\n    Formatting Rules:\n    - Use clear section headers with emojis\n    - Prioritize findings by severity (Critical/High/Medium/Low)\n    - Always include specific code examples when available\n    - Keep bullet points concise (max 1 line)\n    - Use markdown formatting for readability\n    - Highlight positive findings with ✅\n    - Mark risks with ❗\n    - Use [File:Line] references from this diff:\n    "

/-- The part of the `full_html` f-string in `create_html_report` (main.py
lines 111-151) before the `html_content` substitution point; `\x7b\x7d` are the
literal CSS braces (written `{{`/`}}` in the Python f-string). -/
def htmlPre : String :=
  "\n    <!DOCTYPE html>\n    <html lang=\"en\">\n    <head>\n        <meta charset=\"UTF-8\">\n        <meta name=\"viewport\" content=\"width=device-width, initial-scale=1.0\">\n        <title>Code Review Report</title>\n        <style>\n            body \x7b \n                font-family: -apple-system, BlinkMacSystemFont, \x27Segoe UI\x27, Roboto, Oxygen, Ubuntu, Cantarell, sans-serif;\n                line-height: 1.6;\n                margin: 2rem;\n                max-width: 1200px;\n                color: #24292e;\n            \x7d\n            h1, h2, h3 \x7b color: #0366d6; \x7d\n            pre \x7b \n                background-color: #f6f8fa;\n                padding: 1rem;\n                border-radius: 6px;\n                overflow-x: auto;\n            \x7d\n            code \x7b font-family: SFMono-Regular, Consolas, \x27Liberation Mono\x27, Menlo, monospace; \x7d\n            .container \x7b margin: 0 auto; \x7d\n            .header \x7b \n                border-bottom: 1px solid #e1e4e8;\n                margin-bottom: 2rem;\n                padding-bottom: 1rem;\n            \x7d\n        </style>\n    </head>\n    <body>\n        <div class=\"container\">\n            <div class=\"header\">\n                <h1>AI Code Review Report</h1>\n            </div>\n            "

/-- The part of the `full_html` f-string after the `html_content`
substitution point. -/
def htmlPost : String :=
  "\n        </div>\n    </body>\n    </html>\n    "

/-- System-role message content (main.py line 90). -/
def sysMessage : String :=
  "You are a helpful senior software engineer performing code reviews."

/-- Message printed by `main` when the diff is empty after stripping
(main.py line 171). -/
def noDiffMsg : String := "No differences found"

/-- Message printed by `main` when `OPENAI_API_KEY` is falsy
(main.py line 176). -/
def missingKeyMsg : String := "ERROR: OPENAI_API_KEY environment variable not found"

/-- Message printed by `main` before the review call (main.py line 179). -/
def analyzingMsg (dir base : String) : String :=
  "🔍 Analyzing changes in \x27" ++ dir ++ "\x27 compared to \x27" ++ base ++ "\x27...\n"

/-- Message printed by `main` before echoing the review (main.py line 181). -/
def resultsMsg : String := "📝 Code Review Results:\n"

/-- One chat message of the completion request. -/
structure ChatMessage where
  role : String
  content : String
deriving Repr, DecidableEq

/-- The request `code_review_with_openai` sends to
`openai.chat.completions.create` (main.py lines 87-95). -/
structure ApiRequest where
  model : String
  messages : List ChatMessage
  temperature : ℚ
  maxTokens : Nat
deriving Repr, DecidableEq

/-- One choice of a completion response; `message.content` is the text the
code extracts. -/
structure ApiChoice where
  message : ChatMessage
deriving Repr, DecidableEq

/-- A completion response: a list of choices (the code reads `choices[0]`). -/
structure ApiResponse where
  choices : List ApiChoice
deriving Repr, DecidableEq

/-- The external world of one run: the git subprocess outcome, the
environment variable, and the API behaviour.  `gitEvents` is the
interleaved sequence of output segments the subprocess writes, each tagged
with `true` when the segment went to stderr; because `get_git_diff` passes
`stderr=subprocess.STDOUT`, the captured byte stream is the concatenation
of all segments in order. -/
structure World where
  gitExit : Nat
  gitEvents : List (Bool × List Nat)
  apiKey : Option String
  apiResult : Except String ApiResponse
deriving Repr

/-- Bytes captured by `subprocess.check_output(..., stderr=subprocess.STDOUT)`:
the merged stdout-plus-stderr stream. -/
def mergedBytes (evs : List (Bool × List Nat)) : List Nat :=
  (evs.map Prod.snd).flatten

/-- Outcome of one Python-level stage: a value, a `exit(code)` call
(`SystemExit`), or an unhandled exception (e.g. a UTF-8 decode error). -/
inductive StageOut (α : Type) where
  | ok (a : α)
  | exit (code : Nat)
  | crash
deriving Repr, DecidableEq

/-- How the whole process terminates: normal return (exit status 0),
`exit(code)`, or an unhandled exception. -/
inductive RunTerm where
  | normal
  | exited (code : Nat)
  | crashed
deriving Repr, DecidableEq

/-- Observable result of one `main` run: lines printed in order, the
termination kind, the completion requests issued, and the report file
written (path and content), if any. -/
structure RunResult where
  printed : List String
  term : RunTerm
  requests : List ApiRequest
  report : Option (String × String)
deriving Repr, DecidableEq

/-- Parsed CLI arguments: `--dir` (required) and `--base`
(default `"main"`). -/
structure Args where
  dir : String
  base : String
deriving Repr, DecidableEq

/-- Decoder state for strict UTF-8 (Python `bytes.decode("utf-8")`). -/
structure Utf8State where
  acc : List Char
  need : Nat
  cp : Nat
  minCp : Nat
  bad : Bool
deriving Repr, DecidableEq

/-- One step of the strict UTF-8 decoder: classifies a lead byte or
consumes a continuation byte, rejecting stray continuations, overlong
encodings, surrogates and code points above 0x10FFFF. -/
def utf8Step (st : Utf8State) (b : Nat) : Utf8State :=
  if st.bad then st
  else if st.need = 0 then
    if b < 0x80 then { st with acc := Char.ofNat b :: st.acc }
    else if b < 0xC2 then { st with bad := true }
    else if b < 0xE0 then { st with need := 1, cp := b - 0xC0, minCp := 0x80 }
    else if b < 0xF0 then { st with need := 2, cp := b - 0xE0, minCp := 0x800 }
    else if b < 0xF5 then { st with need := 3, cp := b - 0xF0, minCp := 0x10000 }
    else { st with bad := true }
  else if 0x80 ≤ b ∧ b < 0xC0 then
    let cp := st.cp * 64 + (b - 0x80)
    if st.need = 1 then
      if cp < st.minCp ∨ (0xD800 ≤ cp ∧ cp ≤ 0xDFFF) ∨ 0x10FFFF < cp then
        { st with bad := true }
      else { st with acc := Char.ofNat cp :: st.acc, need := 0, cp := 0 }
    else { st with need := st.need - 1, cp := cp }
  else { st with bad := true }

/-- Strict UTF-8 decoding of a byte list, as Python
`bytes.decode("utf-8")`: `none` when the bytes are not valid UTF-8. -/
def utf8Decode (bs : List Nat) : Option String :=
  let st := bs.foldl utf8Step ⟨[], 0, 0, 0, false⟩
  if st.bad then none
  else if st.need = 0 then some ⟨st.acc.reverse⟩
  else none

/-- ASCII whitespace stripped by Python `str.strip()` (Python also strips
further Unicode whitespace, irrelevant to diff text). -/
def pyIsSpace (c : Char) : Bool :=
  c = ' ' || c = '\t' || c = '\n' || c = '\r' || c = '\x0b' || c = '\x0c'

/-- Drop leading and trailing whitespace from a character list. -/
def stripChars (l : List Char) : List Char :=
  ((l.dropWhile pyIsSpace).reverse.dropWhile pyIsSpace).reverse

/-- Python `str.strip()`: drop leading and trailing whitespace. -/
def pyStrip (s : String) : String :=
  ⟨stripChars s.data⟩

/-- The command line `get_git_diff` runs (main.py line 14). -/
def gitCommand (base_branch directory : String) : List String :=
  ["git", "diff", "-u", base_branch, "--", directory]

/-- `get_git_diff` (main.py lines 11-20): runs the diff command with
stderr merged into the captured output; on exit 0 returns the UTF-8
decoding of the captured bytes, on non-zero exit prints
`"Error getting git diff: "` plus the decoded captured output and calls
`exit(1)`.  A decode failure is an unhandled exception.  The command
arguments select what the subprocess diffs; the subprocess itself is the
`World` oracle. -/
def get_git_diff (base_branch directory : String) (w : World) :
    List String × StageOut String :=
  let _cmd := gitCommand base_branch directory
  let captured := mergedBytes w.gitEvents
  if w.gitExit = 0 then
    match utf8Decode captured with
    | some s => ([], .ok s)
    | none => ([], .crash)
  else
    match utf8Decode captured with
    | some s => (["Error getting git diff: " ++ s], .exit 1)
    | none => ([], .crash)

/-- The prompt built by `code_review_with_openai`: the fixed template with
`diff_text` substituted at its single, final substitution point. -/
def buildPrompt (diff_text : String) : String :=
  promptTemplate ++ diff_text

/-- The single completion request `code_review_with_openai` sends
(main.py lines 87-95): model `gpt-4o-mini`, a system message and the user
prompt, temperature 0.2, max_tokens 1000. -/
def mkRequest (diff_text : String) : ApiRequest :=
  { model := "gpt-4o-mini"
  , messages := [⟨"system", sysMessage⟩, ⟨"user", buildPrompt diff_text⟩]
  , temperature := 0.2
  , maxTokens := 1000 }

/-- `code_review_with_openai` (main.py lines 23-99): sends the one fixed
request and returns `response.choices[0].message.content`; any exception
from the call (including an empty `choices` list, whose `IndexError` the
bare `except` also catches) prints `"OpenAI API error: ..."` and calls
`exit(1)`.  Returns (printed lines, requests issued, outcome). -/
def code_review_with_openai (diff_text : String) (w : World) :
    List String × List ApiRequest × StageOut String :=
  let req := mkRequest diff_text
  match w.apiResult with
  | .ok resp =>
    match resp.choices with
    | c :: _ => ([], [req], .ok c.message.content)
    | [] => (["OpenAI API error: list index out of range"], [req], .exit 1)
  | .error e => (["OpenAI API error: " ++ e], [req], .exit 1)

/-- `true` when `pat` is a prefix of `s` (character-exact match at the
start). -/
def leadsWith : List Char → List Char → Bool
  | [], _ => true
  | _ :: _, [] => false
  | p :: ps, c :: cs => p == c && leadsWith ps cs

/-- Number of positions of `s` at which `pat` occurs (occurrences may
overlap). -/
def occCount (pat : List Char) : List Char → Nat
  | [] => 0
  | c :: rest => (if leadsWith pat (c :: rest) then 1 else 0) + occCount pat rest

/-- Split a character list at newline characters (the line structure of
the markdown input); `cur` is the current line, reversed. -/
def splitNl : List Char → List Char → List (List Char)
  | [], cur => [cur.reverse]
  | c :: rest, cur =>
    if c = '\n' then cur.reverse :: splitNl rest [] else splitNl rest (c :: cur)

/-- Join blocks with newline separators. -/
def joinNl : List (List Char) → List Char
  | [] => []
  | [x] => x
  | x :: xs => x ++ '\n' :: joinNl xs

/-- State of the line-by-line markdown renderer: emitted HTML blocks in
reverse, whether a `<ul>` is open, and the pending paragraph lines in
reverse. -/
structure MdState where
  out : List (List Char)
  inList : Bool
  para : List (List Char)
deriving Repr, DecidableEq

/-- Close the open paragraph, if any, merging its lines into one `<p>`
block. -/
def mdFlushPara (st : MdState) : MdState :=
  match st.para with
  | [] => st
  | ps => { st with out := ("<p>".data ++ joinNl ps.reverse ++ "</p>".data) :: st.out
                  , para := [] }

/-- Close the open list, if any. -/
def mdCloseList (st : MdState) : MdState :=
  if st.inList then { st with out := "</ul>".data :: st.out, inList := false } else st

/-- Number of leading `#` characters of an ATX heading line. -/
def hashCount (l : List Char) : Nat :=
  (l.takeWhile (· = '#')).length

/-- One line of markdown rendering: blank lines close open blocks, `#`
lines become headings, `- ` lines become `<li>` items inside a `<ul>`, and
other lines accumulate into a paragraph, passed through without
sanitization. -/
def mdStep (st : MdState) (l : List Char) : MdState :=
  if (stripChars l).isEmpty then mdCloseList (mdFlushPara st)
  else if leadsWith ['#'] l = true ∧ hashCount l ≤ 6 then
    let st := mdCloseList (mdFlushPara st)
    let n := hashCount l
    let tag := ['h', Char.ofNat (48 + n)]
    { st with out := ('<' :: tag ++ '>' :: stripChars (l.drop n) ++ '<' :: '/' :: tag ++ ['>']) :: st.out }
  else if leadsWith ['-', ' '] l = true then
    let st := mdFlushPara st
    let st := if st.inList then st else { st with out := "<ul>".data :: st.out, inList := true }
    { st with out := ("<li>".data ++ stripChars (l.drop 2) ++ "</li>".data) :: st.out }
  else
    let st := mdCloseList st
    { st with para := l :: st.para }

/-- Modelled from the spec: the `markdown.markdown` conversion used by
`create_html_report` comes from the external `markdown` package, whose
source is not part of this repository.  Per the spec it converts markdown
syntax — headings and lists at minimum — to an HTML fragment, and the
content is rendered "directly into HTML without sanitization", so raw text
(including raw HTML) passes through unescaped.  Emphasis and code spans,
which no claim touches, are left as plain paragraph text. -/
def markdown_markdown (s : String) : String :=
  let st := (splitNl s.data []).foldl mdStep ⟨[], false, []⟩
  let st := mdCloseList (mdFlushPara st)
  ⟨joinNl st.out.reverse⟩

/-- POSIX test for an absolute path (starts with the root separator), as
pathlib `Path.is_absolute`. -/
def pathIsAbsolute (p : String) : Bool :=
  leadsWith ['/'] p.data

/-- `create_html_report` (main.py lines 102-158): converts the review
markdown to HTML, wraps it in the fixed document, and writes it to
`output_dir / "code_review_report.html"` (a path relative to the working
directory).  Returns the `(path, document)` pair: the path is the
function's return value, the document the file content written. -/
def create_html_report (markdown_content : String) (output_dir : String) :
    String × String :=
  let html_content := markdown_markdown markdown_content
  let full_html := htmlPre ++ html_content ++ htmlPost
  let report_path := output_dir ++ "/code_review_report.html"
  (report_path, full_html)

/-- Python truthiness of the `os.getenv` result: `None` and `""` are
falsy. -/
def keyTruthy : Option String → Bool
  | none => false
  | some s => !(s == "")

/-- `main` (main.py lines 160-187): extract the diff, stop on empty diff
or falsy `OPENAI_API_KEY`, request the review, write the report and print
its path.  The final `webbrowser.open` call is boundary I/O, not
modelled. -/
def main' (args : Args) (w : World) : RunResult :=
  match get_git_diff args.base args.dir w with
  | (p, .crash) => ⟨p, .crashed, [], none⟩
  | (p, .exit c) => ⟨p, .exited c, [], none⟩
  | (p, .ok diff_text) =>
    if (pyStrip diff_text).isEmpty then
      ⟨p ++ [noDiffMsg], .normal, [], none⟩
    else if keyTruthy w.apiKey = false then
      ⟨p ++ [missingKeyMsg], .normal, [], none⟩
    else
      match code_review_with_openai diff_text w with
      | (p2, reqs, .crash) => ⟨p ++ [analyzingMsg args.dir args.base] ++ p2, .crashed, reqs, none⟩
      | (p2, reqs, .exit c) => ⟨p ++ [analyzingMsg args.dir args.base] ++ p2, .exited c, reqs, none⟩
      | (p2, reqs, .ok review) =>
        let r := create_html_report review "reports"
        ⟨p ++ [analyzingMsg args.dir args.base] ++ p2 ++ [resultsMsg, review, r.1],
         .normal, reqs, some r⟩

/-- A pattern can only lead a list at least as long as it. -/
theorem lw_le_length {p s : List Char} (h : leadsWith p s = true) :
    p.length ≤ s.length := by
  induction p generalizing s with
  | nil => simp
  | cons x xs ih =>
    cases s with
    | nil => simp [leadsWith] at h
    | cons c cs =>
      simp only [leadsWith, Bool.and_eq_true, beq_iff_eq] at h
      simpa [Nat.succ_le_succ_iff] using ih h.2

/-- Leading a list is preserved by appending on the right. -/
theorem lw_append_left {p s : List Char} (b : List Char)
    (h : leadsWith p s = true) : leadsWith p (s ++ b) = true := by
  induction p generalizing s with
  | nil => simp [leadsWith]
  | cons x xs ih =>
    cases s with
    | nil => simp [leadsWith] at h
    | cons c cs =>
      simp only [List.cons_append, leadsWith, Bool.and_eq_true, beq_iff_eq] at h ⊢
      exact ⟨h.1, ih h.2⟩

/-- A pattern leading `s ++ b` either already leads `s`, or `s` is an
initial segment of the pattern whose remainder leads `b`. -/
theorem lw_append_split {p s b : List Char} (h : leadsWith p (s ++ b) = true) :
    leadsWith p s = true ∨
    (leadsWith s p = true ∧ leadsWith (p.drop s.length) b = true) := by
  induction s generalizing p with
  | nil => exact Or.inr ⟨by simp [leadsWith], by simpa using h⟩
  | cons c cs ih =>
    cases p with
    | nil => exact Or.inl (by simp [leadsWith])
    | cons q qs =>
      simp only [List.cons_append, leadsWith, Bool.and_eq_true, beq_iff_eq] at h
      rcases ih h.2 with h1 | ⟨h2, h3⟩
      · exact Or.inl (by simp [leadsWith, h.1, h1])
      · refine Or.inr ⟨by simp [leadsWith, h.1.symm, h2], by simpa using h3⟩

/-- If `s` leads `p` and is at least as long, then `p` leads `s`. -/
theorem lw_full {p s : List Char} (h : leadsWith s p = true)
    (hl : p.length ≤ s.length) : leadsWith p s = true := by
  induction s generalizing p with
  | nil =>
    cases p with
    | nil => simp [leadsWith]
    | cons _ _ => simp at hl
  | cons c cs ih =>
    cases p with
    | nil => simp [leadsWith]
    | cons q qs =>
      simp only [leadsWith, Bool.and_eq_true, beq_iff_eq] at h ⊢
      exact ⟨h.1.symm, ih h.2 (by simpa using hl)⟩

/-- A prefix of a pattern leads wherever the pattern leads. -/
theorem lw_prefix_mono {p q s : List Char}
    (h : leadsWith (p ++ q) s = true) : leadsWith p s = true := by
  induction p generalizing s with
  | nil => simp [leadsWith]
  | cons x xs ih =>
    cases s with
    | nil => simp [leadsWith] at h
    | cons c cs =>
      simp only [List.cons_append, leadsWith, Bool.and_eq_true, beq_iff_eq] at h ⊢
      exact ⟨h.1, ih h.2⟩

/-- Occurrence counting is antitone in the pattern-matching relation. -/
theorem occCount_le {p1 p2 : List Char}
    (hmono : ∀ s, leadsWith p2 s = true → leadsWith p1 s = true) :
    ∀ l, occCount p2 l ≤ occCount p1 l := by
  intro l
  induction l with
  | nil => simp [occCount]
  | cons c cs ih =>
    simp only [occCount]
    have hle : (if leadsWith p2 (c :: cs) then 1 else 0)
        ≤ (if leadsWith p1 (c :: cs) then (1 : Nat) else 0) := by
      by_cases h : leadsWith p2 (c :: cs) = true
      · simp [h, hmono _ h]
      · simp [h]
    omega

/-- Occurrences in an append split when no occurrence straddles the
boundary: every short suffix of `a` that is an initial segment of the
pattern fails to continue into `b`. -/
theorem occCount_append (pat a b : List Char)
    (h : ∀ s t, a = t ++ s → s ≠ [] → s.length < pat.length →
      leadsWith s pat = true → leadsWith (pat.drop s.length) b = false) :
    occCount pat (a ++ b) = occCount pat a + occCount pat b := by
  induction a with
  | nil => simp [occCount]
  | cons c cs ih =>
    have hcs : ∀ s t, cs = t ++ s → s ≠ [] → s.length < pat.length →
        leadsWith s pat = true → leadsWith (pat.drop s.length) b = false := by
      intro s t hts hne hlt hlw
      exact h s (c :: t) (by simp [hts]) hne hlt hlw
    simp only [List.cons_append, occCount, List.append_eq]
    rw [ih hcs]
    have hind : (if leadsWith pat (c :: (cs ++ b)) then (1 : Nat) else 0)
        = (if leadsWith pat (c :: cs) then 1 else 0) := by
      by_cases hcase : leadsWith pat (c :: cs) = true
      · have hl := lw_append_left b hcase
        simp only [List.cons_append] at hl
        simp [hcase, hl]
      · by_cases hc : leadsWith pat (c :: (cs ++ b)) = true
        · exfalso
          have hc' : leadsWith pat ((c :: cs) ++ b) = true := by
            simpa [List.cons_append] using hc
          rcases lw_append_split hc' with h1 | ⟨h2, h3⟩
          · exact hcase h1
          · by_cases hlen : (c :: cs).length < pat.length
            · have hfalse := h (c :: cs) [] rfl (by simp) hlen h2
              simp only [List.length_cons] at hfalse h3
              rw [hfalse] at h3
              simp at h3
            · exact hcase (lw_full h2 (by omega))
        · simp [hcase, hc]
    omega

/-- Any member of a list of segments sits inside the flattening. -/
theorem flatten_split {α : Type} (l : List (List α)) (x : List α)
    (hx : x ∈ l) : ∃ a b, l.flatten = a ++ x ++ b := by
  induction l with
  | nil => simp at hx
  | cons y ys ih =>
    rcases List.mem_cons.mp hx with hx | hx
    · subst hx
      exact ⟨[], ys.flatten, by simp⟩
    · rcases ih hx with ⟨a, b, hab⟩
      exact ⟨y ++ a, b, by simp [hab]⟩

/-- The fixed wrapper prefix contains the title element exactly once. -/
theorem occ_title_pre : occCount "<title>".data htmlPre.data = 1 := by decide

/-- The fixed wrapper suffix contains no title tag. -/
theorem occ_title_post : occCount "<title>".data htmlPost.data = 0 := by decide

/-- The fixed wrapper prefix contains the full title element exactly
once. -/
theorem occ_titleElem_pre :
    occCount "<title>Code Review Report</title>".data htmlPre.data = 1 := by decide

/-- The fixed wrapper suffix contains no full title element. -/
theorem occ_titleElem_post :
    occCount "<title>Code Review Report</title>".data htmlPost.data = 0 := by decide

/-- No short suffix of the wrapper prefix is an initial segment of the
title tag (the prefix ends in whitespace). -/
theorem bound_title_pre : ∀ k, 0 < k → k < ("<title>".data).length →
    leadsWith (htmlPre.data.drop (htmlPre.data.length - k)) "<title>".data = false := by
  intro k h1 h2
  have e : ("<title>".data).length = 7 := rfl
  rw [e] at h2
  interval_cases k <;> decide

/-- No proper tail of the title tag is an initial segment of the wrapper
suffix (the suffix starts with a newline). -/
theorem bound_title_post : ∀ k, 0 < k → k < ("<title>".data).length →
    leadsWith (("<title>".data).drop k) htmlPost.data = false := by
  intro k h1 h2
  have e : ("<title>".data).length = 7 := rfl
  rw [e] at h2
  interval_cases k <;> decide

/-- No short suffix of the wrapper prefix is an initial segment of the
full title element. -/
theorem bound_titleElem_pre : ∀ k, 0 < k → k < ("<title>Code Review Report</title>".data).length →
    leadsWith (htmlPre.data.drop (htmlPre.data.length - k)) "<title>Code Review Report</title>".data = false := by
  intro k h1 h2
  have e : ("<title>Code Review Report</title>".data).length = 33 := rfl
  rw [e] at h2
  interval_cases k <;> decide

/-- No proper tail of the full title element is an initial segment of the
wrapper suffix. -/
theorem bound_titleElem_post : ∀ k, 0 < k → k < ("<title>Code Review Report</title>".data).length →
    leadsWith (("<title>Code Review Report</title>".data).drop k) htmlPost.data = false := by
  intro k h1 h2
  have e : ("<title>Code Review Report</title>".data).length = 33 := rfl
  rw [e] at h2
  interval_cases k <;> decide

/-- Occurrences of a pattern in the wrapped document split into the three
parts, whenever no occurrence can straddle either boundary. -/
theorem occ_doc (pat frag : List Char)
    (hpre : ∀ k, 0 < k → k < pat.length →
      leadsWith (htmlPre.data.drop (htmlPre.data.length - k)) pat = false)
    (hpost : ∀ k, 0 < k → k < pat.length →
      leadsWith (pat.drop k) htmlPost.data = false) :
    occCount pat (htmlPre.data ++ frag ++ htmlPost.data)
      = occCount pat htmlPre.data + occCount pat frag + occCount pat htmlPost.data := by
  have h1 : occCount pat (htmlPre.data ++ (frag ++ htmlPost.data))
      = occCount pat htmlPre.data + occCount pat (frag ++ htmlPost.data) := by
    apply occCount_append
    intro s t hts hne hlt hlw
    exfalso
    have hlen2 : (t ++ s).length - s.length = t.length := by
      simp [List.length_append]
    have hdrop : htmlPre.data.drop (htmlPre.data.length - s.length) = s := by
      rw [hts, hlen2]
      exact List.drop_left t s
    have hk := hpre s.length (List.length_pos.mpr hne) hlt
    rw [hdrop, hlw] at hk
    simp at hk
  have h2 : occCount pat (frag ++ htmlPost.data)
      = occCount pat frag + occCount pat htmlPost.data := by
    apply occCount_append
    intro s t hts hne hlt hlw
    exact hpost s.length (List.length_pos.mpr hne) hlt
  rw [List.append_assoc, h1, h2]
  omega

/-- A fragment without the title tag has no occurrence of the full title
element either. -/
theorem occ_titleElem_frag (frag : List Char)
    (h : occCount "<title>".data frag = 0) :
    occCount "<title>Code Review Report</title>".data frag = 0 := by
  have hsplit : "<title>Code Review Report</title>".data
      = "<title>".data ++ "Code Review Report</title>".data := by decide
  have hmono : ∀ s, leadsWith "<title>Code Review Report</title>".data s = true →
      leadsWith "<title>".data s = true := by
    intro s hs
    rw [hsplit] at hs
    exact lw_prefix_mono hs
  have hle := occCount_le hmono frag
  omega

/-- A document wrapping a fragment without the title tag has exactly one
title tag. -/
theorem occ_title_doc (frag : String)
    (h : occCount "<title>".data frag.data = 0) :
    occCount "<title>".data (htmlPre ++ frag ++ htmlPost).data = 1 := by
  have hd : (htmlPre ++ frag ++ htmlPost).data
      = htmlPre.data ++ frag.data ++ htmlPost.data := by
    simp [String.data_append]
  rw [hd, occ_doc _ _ bound_title_pre bound_title_post, h,
    occ_title_pre, occ_title_post]

/-- A document wrapping a fragment without the title tag has exactly one
full `Code Review Report` title element. -/
theorem occ_titleElem_doc (frag : String)
    (h : occCount "<title>".data frag.data = 0) :
    occCount "<title>Code Review Report</title>".data (htmlPre ++ frag ++ htmlPost).data = 1 := by
  have hd : (htmlPre ++ frag ++ htmlPost).data
      = htmlPre.data ++ frag.data ++ htmlPost.data := by
    simp [String.data_append]
  rw [hd, occ_doc _ _ bound_titleElem_pre bound_titleElem_post,
    occ_titleElem_frag frag.data h, occ_titleElem_pre, occ_titleElem_post]

/-- C1: for every non-empty diff text, the prompt built by
`code_review_with_openai` is the fixed template followed by the diff text,
so the prompt contains the literal diff text verbatim as a trailing
substring. -/
theorem c1_prompt_trailing_diff (diff_text : String) (_h : diff_text ≠ "") :
    buildPrompt diff_text = promptTemplate ++ diff_text ∧
    ∃ head, (buildPrompt diff_text).data = head ++ diff_text.data ∧
      head = promptTemplate.data := by
  refine ⟨rfl, promptTemplate.data, ?_, rfl⟩
  simp [buildPrompt, String.data_append]

/-- Witness for C1 at the concrete diff `"+a\n"`. -/
theorem c1_witness :
    buildPrompt "+a\n" = promptTemplate ++ "+a\n" ∧
    ∃ head, (buildPrompt "+a\n").data = head ++ "+a\n".data ∧
      head = promptTemplate.data :=
  c1_prompt_trailing_diff "+a\n" (by decide)

/-- C2: when the extracted diff is empty or whitespace-only, `main` prints
the no-differences message and returns normally, issuing no completion
request and writing no report. -/
theorem c2_empty_diff_noop (args : Args) (w : World) (s : String)
    (hexit : w.gitExit = 0)
    (hdec : utf8Decode (mergedBytes w.gitEvents) = some s)
    (hempty : (pyStrip s).isEmpty = true) :
    main' args w = ⟨[noDiffMsg], .normal, [], none⟩ := by
  unfold main' get_git_diff
  simp [hexit, hdec, hempty]

/-- Witness for C2 at a whitespace-only diff `" \n"`. -/
theorem c2_witness :
    main' ⟨"src", "main"⟩ ⟨0, [(false, [32, 10])], none, .error "x"⟩
      = ⟨[noDiffMsg], .normal, [], none⟩ :=
  c2_empty_diff_noop ⟨"src", "main"⟩ _ " \n" rfl (by decide) (by decide)

/-- C3 (counterexample): `create_html_report` does not return an absolute
path — at a concrete input its returned path is the relative
`reports/code_review_report.html`. -/
theorem c3_counterexample :
    (create_html_report "## ok" "reports").1 = "reports/code_review_report.html" ∧
    pathIsAbsolute (create_html_report "## ok" "reports").1 = false := by
  exact ⟨rfl, by decide⟩

/-- C3 (amended): for every non-empty review result, `create_html_report`
returns the relative path `reports/code_review_report.html` (resolved to
absolute only for the browser launch), `main` writes the report there and
prints that relative path as its last output line. -/
theorem c3_relative_report_path (args : Args) (w : World) (s : String)
    (resp : ApiResponse) (c : ApiChoice) (rest : List ApiChoice)
    (hexit : w.gitExit = 0)
    (hdec : utf8Decode (mergedBytes w.gitEvents) = some s)
    (hne : (pyStrip s).isEmpty = false)
    (hkey : keyTruthy w.apiKey = true)
    (hresp : w.apiResult = .ok resp)
    (hch : resp.choices = c :: rest) :
    (main' args w).report = some ("reports/code_review_report.html",
      htmlPre ++ markdown_markdown c.message.content ++ htmlPost) ∧
    (main' args w).printed = [analyzingMsg args.dir args.base, resultsMsg,
      c.message.content, "reports/code_review_report.html"] ∧
    pathIsAbsolute "reports/code_review_report.html" = false := by
  have hm : main' args w = ⟨[analyzingMsg args.dir args.base, resultsMsg,
      c.message.content, "reports/code_review_report.html"], .normal,
      [mkRequest s], some ("reports/code_review_report.html",
      htmlPre ++ markdown_markdown c.message.content ++ htmlPost)⟩ := by
    unfold main' get_git_diff code_review_with_openai create_html_report
    simp [hexit, hdec, hne, hkey, hresp, hch]
  rw [hm]
  exact ⟨rfl, rfl, by decide⟩

/-- Witness for C3 (amended) at a concrete successful run. -/
theorem c3_witness :
    (main' ⟨"src", "main"⟩ ⟨0, [(false, [43, 97, 10])], some "k",
        .ok ⟨[⟨⟨"assistant", "## ok"⟩⟩]⟩⟩).report
      = some ("reports/code_review_report.html",
        htmlPre ++ markdown_markdown "## ok" ++ htmlPost) ∧
    (main' ⟨"src", "main"⟩ ⟨0, [(false, [43, 97, 10])], some "k",
        .ok ⟨[⟨⟨"assistant", "## ok"⟩⟩]⟩⟩).printed
      = [analyzingMsg "src" "main", resultsMsg, "## ok",
        "reports/code_review_report.html"] ∧
    pathIsAbsolute "reports/code_review_report.html" = false :=
  c3_relative_report_path ⟨"src", "main"⟩ _ "+a\n" ⟨[⟨⟨"assistant", "## ok"⟩⟩]⟩
    ⟨⟨"assistant", "## ok"⟩⟩ [] rfl (by decide) (by decide) rfl rfl rfl

/-- C4: when `OPENAI_API_KEY` is absent and the extraction succeeded,
`main` issues no completion request, writes no report, returns normally,
and (when the diff is non-empty) prints the missing-key diagnostic. -/
theorem c4_missing_key (args : Args) (w : World) (s : String)
    (hexit : w.gitExit = 0)
    (hdec : utf8Decode (mergedBytes w.gitEvents) = some s)
    (hkey : w.apiKey = none) :
    (main' args w).requests = [] ∧ (main' args w).report = none ∧
    (main' args w).term = .normal ∧
    ((pyStrip s).isEmpty = false → (main' args w).printed = [missingKeyMsg]) := by
  have hm : main' args w = if (pyStrip s).isEmpty then
      ⟨[noDiffMsg], .normal, [], none⟩ else ⟨[missingKeyMsg], .normal, [], none⟩ := by
    unfold main' get_git_diff
    simp [hexit, hdec, hkey, keyTruthy]
  by_cases hc : (pyStrip s).isEmpty = true
  · rw [hm, if_pos hc]
    exact ⟨rfl, rfl, rfl, fun hne => by rw [hc] at hne; cases hne⟩
  · have hc' : (pyStrip s).isEmpty = false := by
      cases hb : (pyStrip s).isEmpty
      · rfl
      · exact absurd hb hc
    rw [hm, hc', if_neg (by simp)]
    exact ⟨rfl, rfl, rfl, fun _ => rfl⟩

/-- Witness for C4 at a concrete run with a non-empty diff and no key. -/
theorem c4_witness :
    (main' ⟨"src", "main"⟩ ⟨0, [(false, [43, 97, 10])], none, .error "x"⟩).requests = [] ∧
    (main' ⟨"src", "main"⟩ ⟨0, [(false, [43, 97, 10])], none, .error "x"⟩).report = none ∧
    (main' ⟨"src", "main"⟩ ⟨0, [(false, [43, 97, 10])], none, .error "x"⟩).term = .normal ∧
    (main' ⟨"src", "main"⟩ ⟨0, [(false, [43, 97, 10])], none, .error "x"⟩).printed = [missingKeyMsg] := by
  have h := c4_missing_key ⟨"src", "main"⟩
    ⟨0, [(false, [43, 97, 10])], none, .error "x"⟩ "+a\n" rfl (by decide) rfl
  exact ⟨h.1, h.2.1, h.2.2.1, h.2.2.2 (by decide)⟩

/-- C5: when the diff tool exits non-zero (with decodable captured
output), `main` prints the captured error output and terminates with exit
code 1, issuing no completion request and writing no report. -/
theorem c5_git_failure (args : Args) (w : World) (err : String)
    (hexit : w.gitExit ≠ 0)
    (hdec : utf8Decode (mergedBytes w.gitEvents) = some err) :
    main' args w = ⟨["Error getting git diff: " ++ err], .exited 1, [], none⟩ := by
  unfold main' get_git_diff
  simp [hexit, hdec]

/-- Witness for C5 at a concrete failing run. -/
theorem c5_witness :
    main' ⟨"src", "main"⟩ ⟨1, [(true, [98, 97, 100])], none, .error "x"⟩
      = ⟨["Error getting git diff: " ++ "bad"], .exited 1, [], none⟩ :=
  c5_git_failure ⟨"src", "main"⟩ _ "bad" (by decide) (by decide)

/-- C6: when the completion call raises, `main` prints the API error and
terminates with exit code 1 before `create_html_report` runs, so no report
is written. -/
theorem c6_api_error_no_report (args : Args) (w : World) (s e : String)
    (hexit : w.gitExit = 0)
    (hdec : utf8Decode (mergedBytes w.gitEvents) = some s)
    (hne : (pyStrip s).isEmpty = false)
    (hkey : keyTruthy w.apiKey = true)
    (hapi : w.apiResult = .error e) :
    main' args w = ⟨[analyzingMsg args.dir args.base, "OpenAI API error: " ++ e],
      .exited 1, [mkRequest s], none⟩ := by
  unfold main' get_git_diff code_review_with_openai
  simp [hexit, hdec, hne, hkey, hapi]

/-- Witness for C6 at a concrete failing API call. -/
theorem c6_witness :
    main' ⟨"src", "main"⟩ ⟨0, [(false, [43, 97, 10])], some "k", .error "boom"⟩
      = ⟨[analyzingMsg "src" "main", "OpenAI API error: " ++ "boom"],
        .exited 1, [mkRequest "+a\n"], none⟩ :=
  c6_api_error_no_report ⟨"src", "main"⟩ _ "+a\n" "boom" rfl (by decide)
    (by decide) rfl rfl

/-- C7 (counterexample): a review result that itself contains a
`<title>` element yields a report document with two `<title>` tags, so the
document does not always contain exactly one `<title>` element. -/
theorem c7_counterexample :
    occCount "<title>".data (create_html_report "<title>x</title>" "reports").2.data = 2 := by
  decide

/-- C7 (amended): the markdown example `"## Heading\n- item1\n- item2"`
renders to an `<h2>` with text `Heading` and a two-item list, and for
every review result whose rendered fragment contains no `<title>` tag the
wrapping document contains exactly one `<title>` element, with text
`Code Review Report`. -/
theorem c7_report_round_trip (md : String)
    (hfrag : occCount "<title>".data (markdown_markdown md).data = 0) :
    (create_html_report "## Heading\n- item1\n- item2" "reports").2
      = htmlPre ++ "<h2>Heading</h2>\n<ul>\n<li>item1</li>\n<li>item2</li>\n</ul>" ++ htmlPost ∧
    occCount "<li>".data (create_html_report "## Heading\n- item1\n- item2" "reports").2.data = 2 ∧
    (∃ a b, (create_html_report "## Heading\n- item1\n- item2" "reports").2
      = a ++ "<h2>Heading</h2>" ++ b) ∧
    occCount "<title>".data (create_html_report md "reports").2.data = 1 ∧
    occCount "<title>Code Review Report</title>".data (create_html_report md "reports").2.data = 1 := by
  refine ⟨?_, by decide, ?_, ?_, ?_⟩
  · show htmlPre ++ markdown_markdown "## Heading\n- item1\n- item2" ++ htmlPost = _
    have h : markdown_markdown "## Heading\n- item1\n- item2"
        = "<h2>Heading</h2>\n<ul>\n<li>item1</li>\n<li>item2</li>\n</ul>" := by decide
    rw [h]
  · refine ⟨htmlPre, "\n<ul>\n<li>item1</li>\n<li>item2</li>\n</ul>" ++ htmlPost, ?_⟩
    show htmlPre ++ markdown_markdown "## Heading\n- item1\n- item2" ++ htmlPost = _
    have h : markdown_markdown "## Heading\n- item1\n- item2"
        = "<h2>Heading</h2>" ++ "\n<ul>\n<li>item1</li>\n<li>item2</li>\n</ul>" := by
      have h0 : markdown_markdown "## Heading\n- item1\n- item2"
          = "<h2>Heading</h2>\n<ul>\n<li>item1</li>\n<li>item2</li>\n</ul>" := by decide
      rw [h0]
      decide
    rw [h]
    simp only [String.append_assoc]
  · exact occ_title_doc (markdown_markdown md) hfrag
  · exact occ_titleElem_doc (markdown_markdown md) hfrag

/-- Witness for C7 (amended) at the concrete markdown example. -/
theorem c7_witness :
    occCount "<title>".data
      (create_html_report "## Heading\n- item1\n- item2" "reports").2.data = 1 ∧
    occCount "<title>Code Review Report</title>".data
      (create_html_report "## Heading\n- item1\n- item2" "reports").2.data = 1 := by
  have h := c7_report_round_trip "## Heading\n- item1\n- item2" (by decide)
  exact ⟨h.2.2.2.1, h.2.2.2.2⟩

/-- C8: `code_review_with_openai` issues exactly one request, with the
fixed model, the system message, the constructed user prompt, temperature
0.2 and max 1000 output tokens, and on success returns the content of the
first response choice. -/
theorem c8_single_fixed_request (diff_text : String) (w : World) :
    (code_review_with_openai diff_text w).2.1 = [mkRequest diff_text] ∧
    (mkRequest diff_text).model = "gpt-4o-mini" ∧
    (mkRequest diff_text).messages
      = [⟨"system", sysMessage⟩, ⟨"user", buildPrompt diff_text⟩] ∧
    (mkRequest diff_text).temperature = 0.2 ∧
    (mkRequest diff_text).maxTokens = 1000 ∧
    ∀ resp c rest, w.apiResult = .ok resp → resp.choices = c :: rest →
      (code_review_with_openai diff_text w).2.2 = .ok c.message.content := by
  refine ⟨?_, rfl, rfl, rfl, rfl, ?_⟩
  · cases hr : w.apiResult with
    | error e => simp [code_review_with_openai, hr]
    | ok resp => cases hc : resp.choices <;> simp [code_review_with_openai, hr, hc]
  · intro resp c rest h1 h2
    simp [code_review_with_openai, h1, h2]

/-- Witness for C8 at a concrete diff and response. -/
theorem c8_witness :
    (code_review_with_openai "+a\n" ⟨0, [], some "k",
      .ok ⟨[⟨⟨"assistant", "## ok"⟩⟩]⟩⟩).2.1 = [mkRequest "+a\n"] ∧
    (code_review_with_openai "+a\n" ⟨0, [], some "k",
      .ok ⟨[⟨⟨"assistant", "## ok"⟩⟩]⟩⟩).2.2 = .ok "## ok" := by
  have h := c8_single_fixed_request "+a\n"
    ⟨0, [], some "k", .ok ⟨[⟨⟨"assistant", "## ok"⟩⟩]⟩⟩
  exact ⟨h.1, h.2.2.2.2.2 ⟨[⟨⟨"assistant", "## ok"⟩⟩]⟩ ⟨⟨"assistant", "## ok"⟩⟩ [] rfl rfl⟩

/-- C9: an `OPENAI_API_KEY` set to the empty string takes the same
missing-credential path as an absent variable: the check is on Python
falsiness of the value, not presence. -/
theorem c9_empty_key_same_as_absent (args : Args) (w : World) (s : String)
    (hexit : w.gitExit = 0)
    (hdec : utf8Decode (mergedBytes w.gitEvents) = some s)
    (hkey : w.apiKey = some "") :
    main' args w = main' args { w with apiKey := none } ∧
    ((pyStrip s).isEmpty = false →
      main' args w = ⟨[missingKeyMsg], .normal, [], none⟩) := by
  constructor
  · unfold main' get_git_diff
    simp [hkey, keyTruthy]
  · intro hne
    unfold main' get_git_diff
    simp [hexit, hdec, hne, hkey, keyTruthy]

/-- Witness for C9 at a concrete run with an empty-string key. -/
theorem c9_witness :
    main' ⟨"src", "main"⟩ ⟨0, [(false, [43, 97, 10])], some "", .error "x"⟩
      = ⟨[missingKeyMsg], .normal, [], none⟩ :=
  (c9_empty_key_same_as_absent ⟨"src", "main"⟩
    ⟨0, [(false, [43, 97, 10])], some "", .error "x"⟩ "+a\n" rfl (by decide) rfl).2
    (by decide)

/-- C10: `get_git_diff` captures the merged stdout-plus-stderr stream
(`stderr=subprocess.STDOUT`), so on a zero-exit run it returns the UTF-8
decoding of the merged bytes, and every stderr segment the tool emitted is
part of the captured stream. -/
theorem c10_stderr_merged (base_branch directory : String) (w : World) (s : String)
    (hexit : w.gitExit = 0)
    (hdec : utf8Decode (mergedBytes w.gitEvents) = some s) :
    get_git_diff base_branch directory w = ([], .ok s) ∧
    ∀ ev ∈ w.gitEvents, ev.1 = true →
      ∃ a b, mergedBytes w.gitEvents = a ++ ev.2 ++ b := by
  constructor
  · unfold get_git_diff
    simp [hexit, hdec]
  · intro ev hev _
    exact flatten_split _ _ (List.mem_map_of_mem Prod.snd hev)

/-- Witness for C10 at a run with one stdout and one stderr segment. -/
theorem c10_witness :
    get_git_diff "main" "src"
      ⟨0, [(false, [43, 97]), (true, [119])], none, .error "x"⟩ = ([], .ok "+aw") ∧
    ∃ a b, mergedBytes [(false, [43, 97]), (true, [119])] = a ++ [119] ++ b := by
  have h := c10_stderr_merged "main" "src"
    ⟨0, [(false, [43, 97]), (true, [119])], none, .error "x"⟩ "+aw" rfl (by decide)
  exact ⟨h.1, h.2 (true, [119]) (by simp) rfl⟩
